import Mathlib

/-!
Verification of the cloud-datastore-interceptor core against its source.

The development shallowly embeds the three pieces of the core:
  * the key-canonicalization helpers `Memory.keystr` (cache/memory/memory.go)
    and `Redis.keystr` (the Redis backend),
  * the cache-aware `Lookup`/`Commit` interceptor (cache/cache.go,
    `UnaryClientInterceptor`), and
  * the query rewriter `queryToLookupWithKeysOnly` (transform package,
    `QueryToLookupWithKeysOnly`, key-map splice revision).

Protobuf messages are embedded as Lean structures.  Pointer-valued proto
fields whose nil-ness the code observes (read options, queries, batches,
entity and key references) are `Option`; opaque byte strings are `List Nat`;
gRPC errors are `String`.  The remote service and the `Cacher` backend are
oracles passed as function arguments, and each interceptor returns a trace
recording every cache call, every remote call, the request's key list after
the call, and the call's outcome.
-/

/-- Go `[]byte` payloads, opaque to the interceptors. -/
abbrev Bytes := List Nat

/-- gRPC / Go errors, identified by their message. -/
abbrev Err := String

/-- The `id_type` oneof of `Key.PathElement`: a numeric id or a string name. -/
inductive IdType where
  | id (i : Int)
  | name (n : String)
deriving DecidableEq, Repr

/-- One `(kind, id-or-name)` segment of a datastore key path.  `idType = none`
models an incomplete path element (neither oneof case set). -/
structure PathElement where
  kind : String
  idType : Option IdType
deriving DecidableEq, Repr

/-- The `PartitionId` message: project id and namespace id. -/
structure PartitionId where
  projectId : String
  namespaceId : String
deriving DecidableEq, Repr

/-- The `Key` message: an optional partition id plus a path of segments. -/
structure Key where
  partitionId : Option PartitionId
  path : List PathElement
deriving DecidableEq, Repr

/-- Go `key.GetPartitionId().GetNamespaceId()`: empty string when the
partition id is absent. -/
def namespaceId (k : Key) : String :=
  (k.partitionId.map (fun p => p.namespaceId)).getD ""

/-- Go `strconv.FormatInt(i, 10)`: signed decimal notation. -/
def formatInt (i : Int) : String :=
  if i < 0 then "-" ++ Nat.repr (-i).toNat else Nat.repr i.toNat

/-- Lower-case hexadecimal digit, used by the quoting helper. -/
def hexDigit (n : Nat) : Char :=
  if n < 10 then Char.ofNat (48 + n) else Char.ofNat (87 + n)

/-- Fixed-width lower-case hexadecimal of `n`, `w` digits. -/
def hexFixed (w : Nat) (n : Nat) : String :=
  String.mk ((List.range w).map (fun j => hexDigit (n / 16 ^ (w - 1 - j) % 16)))

/-- One character of Go `strconv.Quote`'s body: escape `"` and `\`, the
standard control escapes, pass printable ASCII through, and hex-escape the
rest.  (Go additionally passes printable non-ASCII runes through unescaped;
no modelled key exercises that range.) -/
def quoteChar (c : Char) : String :=
  if c = '"' then "\\\""
  else if c = '\\' then "\\\\"
  else if 0x20 ≤ c.toNat ∧ c.toNat < 0x7f then String.mk [c]
  else if c.toNat = 0x07 then "\\a"
  else if c.toNat = 0x08 then "\\b"
  else if c.toNat = 0x0c then "\\f"
  else if c.toNat = 0x0a then "\\n"
  else if c.toNat = 0x0d then "\\r"
  else if c.toNat = 0x09 then "\\t"
  else if c.toNat = 0x0b then "\\v"
  else if c.toNat < 0x100 then "\\x" ++ hexFixed 2 c.toNat
  else if c.toNat < 0x10000 then "\\u" ++ hexFixed 4 c.toNat
  else "\\U" ++ hexFixed 8 c.toNat

/-- Go `strconv.Quote`: a double-quoted, escaped string literal. -/
def goQuote (s : String) : String :=
  "\"" ++ String.join (s.data.map quoteChar) ++ "\""

namespace Memory

/-- `keystr` of cache/memory/memory.go: the namespace (or the marker
`[default]`) followed by each path segment's kind and decimal id or quoted
name, concatenated with no separator via a `strings.Builder`. -/
def keystr (key : Key) : String :=
  let b0 := if namespaceId key ≠ "" then namespaceId key else "[default]"
  key.path.foldl
    (fun b p =>
      match p.idType with
      | some (IdType.id i) => b ++ p.kind ++ formatInt i
      | some (IdType.name n) => b ++ p.kind ++ goQuote n
      | none => b ++ p.kind)
    b0

end Memory

namespace Redis

/-- `keystr` of the Redis backend: the same pieces as `Memory.keystr`,
collected into a slice and joined with `/`. -/
def keystr (key : Key) : String :=
  let s0 := [if namespaceId key ≠ "" then namespaceId key else "[default]"]
  let s := key.path.foldl
    (fun s p =>
      match p.idType with
      | some (IdType.id i) => s ++ [p.kind, formatInt i]
      | some (IdType.name n) => s ++ [p.kind, goQuote n]
      | none => s ++ [p.kind])
    s0
  String.intercalate "/" s

end Redis

/-- Claim C6 counterexample: the canonical string form is not injective.
The key explicitly placed in namespace `"[default]"` and the key in the
(absent) default namespace produce the same canonical string under both
`Memory.keystr` and `Redis.keystr`, yet their namespaces differ, so they are
not equal keys. -/
theorem c6_counterexample :
    Memory.keystr { partitionId := some { projectId := "", namespaceId := "[default]" }, path := [] } =
      Memory.keystr { partitionId := none, path := [] } ∧
    Redis.keystr { partitionId := some { projectId := "", namespaceId := "[default]" }, path := [] } =
      Redis.keystr { partitionId := none, path := [] } ∧
    ¬ (namespaceId { partitionId := some { projectId := "", namespaceId := "[default]" }, path := [] } =
         namespaceId { partitionId := none, path := [] } ∧
       ({ partitionId := some { projectId := "", namespaceId := "[default]" }, path := [] } : Key).path =
         ({ partitionId := none, path := [] } : Key).path) := by
  refine ⟨rfl, rfl, ?_⟩
  intro h
  exact absurd h.1 (by decide)

/-- Claim C6 (amended): equal keys — same namespace and same path of
`(kind, id-or-name)` segments — always produce equal canonical strings under
both backends, so identical keys always hash to the same cache slot; the
converse direction of the original claim fails (`c6_counterexample`). -/
theorem c6_canonical_of_eq (k1 k2 : Key)
    (hns : namespaceId k1 = namespaceId k2) (hp : k1.path = k2.path) :
    Memory.keystr k1 = Memory.keystr k2 ∧ Redis.keystr k1 = Redis.keystr k2 := by
  unfold Memory.keystr Redis.keystr
  rw [hns, hp]
  exact ⟨rfl, rfl⟩

/-- Witness for `c6_canonical_of_eq` at a concrete key with one id segment
and one name segment. -/
theorem c6_canonical_of_eq_witness :
    namespaceId { partitionId := some { projectId := "p", namespaceId := "ns" },
                  path := [{ kind := "A", idType := some (IdType.id 7) },
                           { kind := "B", idType := some (IdType.name "x") }] } =
      namespaceId { partitionId := some { projectId := "q", namespaceId := "ns" },
                    path := [{ kind := "A", idType := some (IdType.id 7) },
                             { kind := "B", idType := some (IdType.name "x") }] } ∧
    Memory.keystr { partitionId := some { projectId := "p", namespaceId := "ns" },
                    path := [{ kind := "A", idType := some (IdType.id 7) },
                             { kind := "B", idType := some (IdType.name "x") }] } =
      Memory.keystr { partitionId := some { projectId := "q", namespaceId := "ns" },
                      path := [{ kind := "A", idType := some (IdType.id 7) },
                               { kind := "B", idType := some (IdType.name "x") }] } := by
  refine ⟨rfl, ?_⟩
  exact (c6_canonical_of_eq _ _ rfl rfl).1

/-- The `Entity` message, as far as the interceptors observe it: an optional
key reference plus the property map, abstracted as an opaque association
list (the interceptors never read the properties). -/
structure Entity where
  key : Option Key
  props : List (String × String)
deriving DecidableEq, Repr

/-- The `EntityResult` message: an optional entity (version and cursor are
never observed by the interceptors). -/
structure EntityResult where
  entity : Option Entity
deriving DecidableEq, Repr

/-- Go `v.GetEntity().GetKey()` on an `EntityResult`, with nil propagation. -/
def entityResultKey (v : EntityResult) : Option Key :=
  (v.entity.map (fun e => e.key)).getD none

/-- The `consistency_type` oneof of `ReadOptions`.  The transaction payload
is `Option Bytes` because the Go field is a `[]byte` that can itself be nil
even when the oneof case is set. -/
inductive ConsistencyKind where
  | readConsistency (c : Int)
  | transaction (t : Option Bytes)
deriving DecidableEq, Repr

/-- The `ReadOptions` message. -/
structure ReadOptions where
  consistencyType : Option ConsistencyKind
deriving DecidableEq, Repr

/-- The `LookupRequest` message: project id, optional read options, keys.
Keys inside request lists are modelled as values (the code never nil-checks
individual list elements on this path). -/
structure LookupRequest where
  projectId : String
  readOptions : Option ReadOptions
  keys : List Key
deriving DecidableEq, Repr

/-- Go `in.GetReadOptions().GetTransaction()`: the transaction bytes when the
oneof holds the transaction case, nil otherwise. -/
def getTransaction (r : LookupRequest) : Option Bytes :=
  match r.readOptions with
  | some { consistencyType := some (ConsistencyKind.transaction t) } => t
  | _ => none

/-- Decidable equality of call outcomes. -/
instance {ε α : Type} [DecidableEq ε] [DecidableEq α] : DecidableEq (Except ε α) := fun a b =>
  match a, b with
  | Except.error e1, Except.error e2 => decidable_of_iff (e1 = e2) (by simp)
  | Except.error _, Except.ok _ => isFalse (by simp)
  | Except.ok _, Except.error _ => isFalse (by simp)
  | Except.ok x, Except.ok y => decidable_of_iff (x = y) (by simp)

/-- Trace of one intercepted Lookup call: the argument of every
`Cacher.GetMulti` call, of every `Cacher.SetMulti` call (keys are
`v.Entity.Key` references, hence optional), of every remote invocation, the
request's key list when the interceptor returns, and the outcome (`ok` holds
the reply's `Found` list). -/
structure LookupTrace where
  getCalls : List (List Key)
  setCalls : List (List (Option Key) × List Bytes)
  remoteCalls : List (List Key)
  reqKeysAfter : List Key
  result : Except Err (List EntityResult)
deriving DecidableEq, Repr

/-- The classification loop of the Lookup path (cache/cache.go): walk the
`GetMulti` reply alongside the request keys; a nil slot or an entry that
fails to unmarshal sends its key to `missing`, a deserializable entry sends
its `EntityResult` to `found`, both in slot order.  (Go indexes `keys[i]`
while ranging over `cached` and would panic if `cached` were longer; the
`Cacher` contract makes the lists equal in length or `cached` nil.) -/
def lookupCollect (unm : Bytes → Option EntityResult) :
    List (Option Bytes) → List Key → List EntityResult × List Key
  | [], _ => ([], [])
  | _ :: _, [] => ([], [])
  | none :: vs, k :: ks =>
    let r := lookupCollect unm vs ks
    (r.1, k :: r.2)
  | some b :: vs, k :: ks =>
    let r := lookupCollect unm vs ks
    match unm b with
    | none => (r.1, k :: r.2)
    | some e => (e :: r.1, r.2)

/-- The replacement key list sent to the remote service: the whole original
key set when the cache answered nothing at all, the missing keys otherwise. -/
def lookupMissingKeys (unm : Bytes → Option EntityResult)
    (cached : List (Option Bytes)) (keys : List Key) : List Key :=
  if cached.isEmpty then keys else (lookupCollect unm cached keys).2

/-- The Lookup arm of `UnaryClientInterceptor` (cache/cache.go).  `unm` is
`proto.Unmarshal` into an `EntityResult`, `mar` is `proto.Marshal`,
`cacherGet` is the `Cacher.GetMulti` oracle and `invoke` the remote-service
oracle (returning the reply's `Found` list; an empty list models the nil
slice a found-nothing reply unmarshals to).  Mirrors the source line by
line, including: no cache use inside a transaction; the all-hit early
return; the zero-hit whole-set fallback; the key-list restore happening only
after a successful remote call; the no-`SetMulti` early return when the
remote found nothing; the merged reply `got ++ found`; and the best-effort
per-entity marshal before `SetMulti`. -/
def lookupIntercept (unm : Bytes → Option EntityResult)
    (mar : EntityResult → Option Bytes) (req : LookupRequest)
    (cacherGet : List Key → List (Option Bytes))
    (invoke : List Key → Except Err (List EntityResult)) : LookupTrace :=
  if (getTransaction req).isSome then
    { getCalls := [], setCalls := [], remoteCalls := [req.keys],
      reqKeysAfter := req.keys, result := invoke req.keys }
  else
    let keys := req.keys
    let cached := cacherGet keys
    let fm := lookupCollect unm cached keys
    if keys.length = fm.1.length then
      { getCalls := [keys], setCalls := [], remoteCalls := [],
        reqKeysAfter := keys, result := Except.ok fm.1 }
    else
      let missing := lookupMissingKeys unm cached keys
      match invoke missing with
      | Except.error e =>
        { getCalls := [keys], setCalls := [], remoteCalls := [missing],
          reqKeysAfter := missing, result := Except.error e }
      | Except.ok got =>
        if got.isEmpty then
          { getCalls := [keys], setCalls := [], remoteCalls := [missing],
            reqKeysAfter := keys, result := Except.ok fm.1 }
        else
          let pairs := got.filterMap fun v => (mar v).map fun b => (entityResultKey v, b)
          { getCalls := [keys],
            setCalls := [(pairs.map Prod.fst, pairs.map Prod.snd)],
            remoteCalls := [missing], reqKeysAfter := keys,
            result := Except.ok (got ++ fm.1) }

/-- When every cache slot holds a deserializable entry, the classification
loop returns exactly the decoded entries in slot order and no missing key. -/
theorem lookupCollect_all_hits (unm : Bytes → Option EntityResult) :
    ∀ (cached : List (Option Bytes)) (keys : List Key) (es : List EntityResult),
      cached.map (fun ob => ob.bind unm) = es.map some →
      cached.length = keys.length →
      lookupCollect unm cached keys = (es, []) := by
  intro cached
  induction cached with
  | nil =>
    intro keys es hmap _
    cases es with
    | nil => cases keys <;> rfl
    | cons e es' => simp at hmap
  | cons ob tl ih =>
    intro keys es hmap hlen
    cases es with
    | nil => simp at hmap
    | cons e es' =>
      cases keys with
      | nil => simp at hlen
      | cons k ks =>
        simp only [List.map_cons, List.cons.injEq] at hmap
        cases ob with
        | none => simp at hmap
        | some b =>
          have hub : unm b = some e := by simpa using hmap.1
          have := ih ks es' hmap.2 (by simpa using hlen)
          simp only [lookupCollect, this, hub]

/-- Claim C2: a non-transactional Lookup whose keys all hit the cache with
deserializable entries makes zero remote calls and returns exactly the
cached entity results, in the order of the request's key list (the `GetMulti`
reply is slot-aligned with the request keys). -/
theorem c2_all_hits_no_remote (unm : Bytes → Option EntityResult)
    (mar : EntityResult → Option Bytes) (req : LookupRequest)
    (cacherGet : List Key → List (Option Bytes))
    (invoke : List Key → Except Err (List EntityResult))
    (es : List EntityResult)
    (hntxn : getTransaction req = none)
    (hall : (cacherGet req.keys).map (fun ob => ob.bind unm) = es.map some)
    (hlen : (cacherGet req.keys).length = req.keys.length) :
    lookupIntercept unm mar req cacherGet invoke =
      { getCalls := [req.keys], setCalls := [], remoteCalls := [],
        reqKeysAfter := req.keys, result := Except.ok es } := by
  have hfm := lookupCollect_all_hits unm (cacherGet req.keys) req.keys es hall hlen
  have hes : req.keys.length = es.length := by
    have h1 : ((cacherGet req.keys).map (fun ob => ob.bind unm)).length = (es.map some).length := by
      rw [hall]
    simpa [hlen] using h1
  unfold lookupIntercept
  rw [hntxn]
  simp only [Option.isSome_none, Bool.false_eq_true, if_false, hfm]
  rw [if_pos hes]

/-- Witness for `c2_all_hits_no_remote`: two keys, both cached. -/
theorem c2_all_hits_no_remote_witness :
    getTransaction { projectId := "p", readOptions := none,
                     keys := [{ partitionId := none, path := [{ kind := "A", idType := some (IdType.id 1) }] },
                              { partitionId := none, path := [{ kind := "A", idType := some (IdType.id 2) }] }] } = none ∧
    lookupIntercept
        (fun b => if b = [1] then some { entity := some { key := none, props := [("d", "v1")] } }
                  else if b = [2] then some { entity := some { key := none, props := [("d", "v2")] } }
                  else none)
        (fun _ => none)
        { projectId := "p", readOptions := none,
          keys := [{ partitionId := none, path := [{ kind := "A", idType := some (IdType.id 1) }] },
                   { partitionId := none, path := [{ kind := "A", idType := some (IdType.id 2) }] }] }
        (fun _ => [some [1], some [2]])
        (fun _ => Except.error "remote must not be called") =
      { getCalls := [[{ partitionId := none, path := [{ kind := "A", idType := some (IdType.id 1) }] },
                      { partitionId := none, path := [{ kind := "A", idType := some (IdType.id 2) }] }]],
        setCalls := [], remoteCalls := [],
        reqKeysAfter := [{ partitionId := none, path := [{ kind := "A", idType := some (IdType.id 1) }] },
                         { partitionId := none, path := [{ kind := "A", idType := some (IdType.id 2) }] }],
        result := Except.ok [{ entity := some { key := none, props := [("d", "v1")] } },
                             { entity := some { key := none, props := [("d", "v2")] } }] } :=
  ⟨rfl,
   c2_all_hits_no_remote _ _ _ _ _
     [{ entity := some { key := none, props := [("d", "v1")] } },
      { entity := some { key := none, props := [("d", "v2")] } }]
     rfl (by decide) rfl⟩

/-- Claim C5: a Lookup whose read options carry a transaction is forwarded
to the remote service unchanged and performs no cache operation at all —
`GetMulti` and `SetMulti` are never called, the request keys are untouched,
and the outcome is exactly the remote outcome. -/
theorem c5_transactional_passthrough (unm : Bytes → Option EntityResult)
    (mar : EntityResult → Option Bytes) (req : LookupRequest)
    (cacherGet : List Key → List (Option Bytes))
    (invoke : List Key → Except Err (List EntityResult))
    (htxn : (getTransaction req).isSome = true) :
    lookupIntercept unm mar req cacherGet invoke =
      { getCalls := [], setCalls := [], remoteCalls := [req.keys],
        reqKeysAfter := req.keys, result := invoke req.keys } := by
  unfold lookupIntercept
  rw [htxn]
  simp

/-- Witness for `c5_transactional_passthrough` on a request carrying a
transaction token. -/
theorem c5_transactional_passthrough_witness :
    (getTransaction { projectId := "p",
                      readOptions := some { consistencyType := some (ConsistencyKind.transaction (some [9])) },
                      keys := [{ partitionId := none, path := [{ kind := "A", idType := some (IdType.id 1) }] }] }).isSome = true ∧
    lookupIntercept
        (fun _ => none) (fun _ => none)
        { projectId := "p",
          readOptions := some { consistencyType := some (ConsistencyKind.transaction (some [9])) },
          keys := [{ partitionId := none, path := [{ kind := "A", idType := some (IdType.id 1) }] }] }
        (fun _ => [])
        (fun _ => Except.ok []) =
      { getCalls := [], setCalls := [],
        remoteCalls := [[{ partitionId := none, path := [{ kind := "A", idType := some (IdType.id 1) }] }]],
        reqKeysAfter := [{ partitionId := none, path := [{ kind := "A", idType := some (IdType.id 1) }] }],
        result := Except.ok [] } :=
  ⟨rfl, c5_transactional_passthrough _ _ _ _ _ rfl⟩

/-- Sample key `A/1`, used by concrete witnesses. -/
def kx1 : Key := { partitionId := none, path := [{ kind := "A", idType := some (IdType.id 1) }] }

/-- Sample key `A/2`, used by concrete witnesses. -/
def kx2 : Key := { partitionId := none, path := [{ kind := "A", idType := some (IdType.id 2) }] }

/-- Sample cached entity result for `kx1`. -/
def erHit : EntityResult := { entity := some { key := some kx1, props := [("d", "v1")] } }

/-- Sample remotely fetched entity result for `kx2`. -/
def erRemote : EntityResult := { entity := some { key := some kx2, props := [("d", "v2")] } }

/-- Sample unmarshal oracle: byte string `[1]` decodes to `erHit`. -/
def unmEx : Bytes → Option EntityResult := fun b => if b = [1] then some erHit else none

/-- Sample marshal oracle. -/
def marEx : EntityResult → Option Bytes := fun _ => some [0]

/-- Sample non-transactional lookup request for `[kx1, kx2]`. -/
def reqEx : LookupRequest := { projectId := "p", readOptions := none, keys := [kx1, kx2] }

/-- Sample cache answer: `kx1` hits with bytes `[1]`, `kx2` misses. -/
def cgetEx : List Key → List (Option Bytes) := fun _ => [some [1], none]

/-- Sample remote service: finds `erRemote`. -/
def invEx : List Key → Except Err (List EntityResult) := fun _ => Except.ok [erRemote]

/-- Claim C1 counterexample: with `kx1` cached and `kx2` fetched remotely,
the merged reply is `[erRemote, erHit]` — the freshly fetched entity comes
first — and not `[erHit, erRemote]` as the cached-then-fetched claim states
(cache/cache.go appends the cache hits to the reply already holding the
remote finds). -/
theorem c1_counterexample :
    (lookupIntercept unmEx marEx reqEx cgetEx invEx).result = Except.ok [erRemote, erHit] ∧
    (Except.ok [erRemote, erHit] : Except Err (List EntityResult)) ≠
      Except.ok ([erHit] ++ [erRemote]) := by
  exact ⟨rfl, by decide⟩

/-- Claim C1 (amended): for a non-transactional Lookup with at least one
cache miss whose remote call succeeds finding at least one entity, the
merged reply places the freshly fetched remote entities ahead of the
cache-hit entities: reply = remote finds ++ cache hits. -/
theorem c1_merge_order (unm : Bytes → Option EntityResult)
    (mar : EntityResult → Option Bytes) (req : LookupRequest)
    (cacherGet : List Key → List (Option Bytes))
    (invoke : List Key → Except Err (List EntityResult))
    (hntxn : getTransaction req = none)
    (hmiss : req.keys.length ≠ (lookupCollect unm (cacherGet req.keys) req.keys).1.length)
    (got : List EntityResult)
    (hinv : invoke (lookupMissingKeys unm (cacherGet req.keys) req.keys) = Except.ok got)
    (hgot : got ≠ []) :
    (lookupIntercept unm mar req cacherGet invoke).result =
      Except.ok (got ++ (lookupCollect unm (cacherGet req.keys) req.keys).1) := by
  have hemp : got.isEmpty = false := by
    cases got with
    | nil => exact absurd rfl hgot
    | cons g gs => rfl
  unfold lookupIntercept
  rw [hntxn]
  simp only [Option.isSome_none, Bool.false_eq_true, if_false]
  rw [if_neg hmiss, hinv]
  simp [hemp]

/-- Witness for `c1_merge_order` at the `c1_counterexample` input. -/
theorem c1_merge_order_witness :
    getTransaction reqEx = none ∧
    reqEx.keys.length ≠ (lookupCollect unmEx (cgetEx reqEx.keys) reqEx.keys).1.length ∧
    invEx (lookupMissingKeys unmEx (cgetEx reqEx.keys) reqEx.keys) = Except.ok [erRemote] ∧
    (lookupIntercept unmEx marEx reqEx cgetEx invEx).result =
      Except.ok ([erRemote] ++ (lookupCollect unmEx (cgetEx reqEx.keys) reqEx.keys).1) :=
  ⟨rfl, by decide, rfl,
   c1_merge_order unmEx marEx reqEx cgetEx invEx rfl (by decide) [erRemote] rfl (by decide)⟩

/-- Claim C7 counterexample: when the remote call fails after a partial
cache hit, the interceptor returns before restoring the request's key list —
the caller's request is left holding the reduced key list `[kx2]`, not the
original `[kx1, kx2]`. -/
theorem c7_counterexample :
    (lookupIntercept unmEx marEx reqEx cgetEx (fun _ => Except.error "remote down")).reqKeysAfter =
      [kx2] ∧
    [kx2] ≠ reqEx.keys := by
  exact ⟨rfl, by decide⟩

/-- Claim C7 (amended): for a non-transactional Lookup with at least one
cache miss, the request's key list is restored to the caller's original key
list when the remote call succeeds; when the remote call fails the request
is left holding the reduced replacement key list (`c7_counterexample`). -/
theorem c7_restore_on_success (unm : Bytes → Option EntityResult)
    (mar : EntityResult → Option Bytes) (req : LookupRequest)
    (cacherGet : List Key → List (Option Bytes))
    (invoke : List Key → Except Err (List EntityResult))
    (hntxn : getTransaction req = none)
    (hmiss : req.keys.length ≠ (lookupCollect unm (cacherGet req.keys) req.keys).1.length)
    (got : List EntityResult)
    (hinv : invoke (lookupMissingKeys unm (cacherGet req.keys) req.keys) = Except.ok got) :
    (lookupIntercept unm mar req cacherGet invoke).reqKeysAfter = req.keys := by
  unfold lookupIntercept
  rw [hntxn]
  simp only [Option.isSome_none, Bool.false_eq_true, if_false]
  rw [if_neg hmiss, hinv]
  cases got <;> simp

/-- Witness for `c7_restore_on_success` at the successful-remote input. -/
theorem c7_restore_on_success_witness :
    getTransaction reqEx = none ∧
    reqEx.keys.length ≠ (lookupCollect unmEx (cgetEx reqEx.keys) reqEx.keys).1.length ∧
    invEx (lookupMissingKeys unmEx (cgetEx reqEx.keys) reqEx.keys) = Except.ok [erRemote] ∧
    (lookupIntercept unmEx marEx reqEx cgetEx invEx).reqKeysAfter = reqEx.keys :=
  ⟨rfl, by decide, rfl,
   c7_restore_on_success unmEx marEx reqEx cgetEx invEx rfl (by decide) [erRemote] rfl⟩

/-- The `operation` oneof of the `Mutation` message.  Insert/update/upsert
carry an entity; delete carries a key reference (which, being a proto
pointer field, is optional).  `unset` models a mutation with no operation
set, which the interceptor's switch skips. -/
inductive Mutation where
  | insert (e : Entity)
  | update (e : Entity)
  | upsert (e : Entity)
  | delete (k : Option Key)
  | unset
deriving DecidableEq, Repr

/-- The `CommitRequest` message: project id, mode, the optional transaction
selector, and the mutation list. -/
structure CommitRequest where
  projectId : String
  mode : Int
  transactionSelector : Option Bytes
  mutations : List Mutation
deriving DecidableEq, Repr

/-- The key-gathering loop of the Commit arm (cache/cache.go): the keys of
Update, Upsert and Delete mutations, in mutation order; Insert mutations
(and mutations with no operation) contribute nothing. -/
def commitKeys (ms : List Mutation) : List (Option Key) :=
  ms.filterMap fun m =>
    match m with
    | Mutation.update e => some e.key
    | Mutation.upsert e => some e.key
    | Mutation.delete k => some k
    | Mutation.insert _ => none
    | Mutation.unset => none

/-- Trace of one intercepted Commit call: the argument of every
`Cacher.DeleteMulti` call, and the call's outcome (`none` = success). -/
structure CommitTrace where
  deleteCalls : List (List (Option Key))
  result : Option Err
deriving DecidableEq, Repr

/-- The Commit arm of `UnaryClientInterceptor` (cache/cache.go).  `invoke`
is the remote outcome (`none` = success) and `cacherDelete` the
`Cacher.DeleteMulti` oracle.  Mirrors the source: a failed remote commit is
propagated with no invalidation; on success the mutation keys are gathered
and, when non-empty, the `DeleteMulti` return value becomes the result of
the whole call; the transaction selector and mode are never inspected. -/
def commitIntercept (req : CommitRequest) (invoke : Option Err)
    (cacherDelete : List (Option Key) → Option Err) : CommitTrace :=
  match invoke with
  | some e => { deleteCalls := [], result := some e }
  | none =>
    let keys := commitKeys req.mutations
    if keys.length > 0 then { deleteCalls := [keys], result := cacherDelete keys }
    else { deleteCalls := [], result := none }

/-- Claim C3: after a successful remote Commit, the interceptor calls
`DeleteMulti` with exactly the keys of the Update, Upsert and Delete
mutations in mutation order (Insert contributes no key); when that key list
is non-empty the `DeleteMulti` return value becomes the result of the whole
call, and when it is empty the call returns success with no `DeleteMulti`
call. -/
theorem c3_commit_invalidation (req : CommitRequest)
    (cacherDelete : List (Option Key) → Option Err) :
    commitIntercept req none cacherDelete =
      if commitKeys req.mutations = [] then { deleteCalls := [], result := none }
      else { deleteCalls := [commitKeys req.mutations],
             result := cacherDelete (commitKeys req.mutations) } := by
  unfold commitIntercept
  cases h : commitKeys req.mutations with
  | nil => simp [h]
  | cons k ks => simp [h]

/-- Claim C4: when the remote Commit invocation fails, the interceptor
propagates that error and never calls `DeleteMulti` — the cache is untouched
on commit failure. -/
theorem c4_commit_error_no_invalidation (req : CommitRequest) (e : Err)
    (cacherDelete : List (Option Key) → Option Err) :
    commitIntercept req (some e) cacherDelete = { deleteCalls := [], result := some e } :=
  rfl

/-- Claim C10: commit-path invalidation is independent of the transaction
selector, the mode and the project id — two successful Commit calls with
equal mutation lists produce identical traces (same `DeleteMulti` call, same
result), whatever their transaction selectors. -/
theorem c10_commit_ignores_transaction
    (pid1 pid2 : String) (mode1 mode2 : Int) (ts1 ts2 : Option Bytes)
    (ms : List Mutation) (cacherDelete : List (Option Key) → Option Err) :
    commitIntercept { projectId := pid1, mode := mode1, transactionSelector := ts1, mutations := ms }
        none cacherDelete =
      commitIntercept { projectId := pid2, mode := mode2, transactionSelector := ts2, mutations := ms }
        none cacherDelete :=
  rfl

/-- A `Projection` message: the projected property's name. -/
structure Projection where
  propertyName : String
deriving DecidableEq, Repr

/-- The structured `Query` message, as far as the rewriter observes it: the
projection field (an `Option` because the code nil-checks the slice); kind
filters, property filters, ordering and limits are never read or written by
the rewriter and are abstracted as an opaque remainder. -/
structure Query where
  projection : Option (List Projection)
  rest : List (String × String)
deriving DecidableEq, Repr

/-- The `entity_result_type` enum of `QueryResultBatch`. -/
inductive ResultType where
  | unspecified
  | projection
  | keysOnly
  | full
deriving DecidableEq, Repr

/-- The `QueryResultBatch` message: the result-type flag and the entity
results (cursors and more-results are never observed by the rewriter). -/
structure QueryResultBatch where
  entityResultType : ResultType
  entityResults : List EntityResult
deriving DecidableEq, Repr

/-- The `RunQueryResponse` message: an optional batch. -/
structure RunQueryResponse where
  batch : Option QueryResultBatch
deriving DecidableEq, Repr

/-- The `RunQueryRequest` message: `query = none` models the GQL case
(`GetQuery() == nil`). -/
structure RunQueryRequest where
  projectId : String
  readOptions : Option ReadOptions
  query : Option Query
deriving DecidableEq, Repr

/-- The iteration building the Go `keymap` plus the lookup with the map's
zero default: the last index of `ks` holding `k` (later writes overwrite
earlier ones), `0` when `k` never occurs.  `i` is the index of the head of
the remaining list, `acc` the map entry seen so far. -/
def keymapFindAux (k : Option Key) : List (Option Key) → Nat → Nat → Nat
  | [], _, acc => acc
  | k' :: ks, i, acc => keymapFindAux k ks (i + 1) (if k' = k then i else acc)

/-- Go `keymap[key.String()]` of the rewriter: proto text marshalling is
injective on the modelled key fields, so the map is indexed by the key value
itself. -/
def keymapFind (ks : List (Option Key)) (k : Option Key) : Nat :=
  keymapFindAux k ks 0 0

/-- The splice loop of the rewriter: each found entity is written into the
result slot at the index the keymap gives for its key.  `List.set` ignores
an out-of-range index; Go would panic there, but every keymap value is an
index of the batch. -/
def spliceResults (bkeys : List (Option Key)) (rs : List EntityResult)
    (found : List EntityResult) : List EntityResult :=
  found.foldl (fun acc v => acc.set (keymapFind bkeys (entityResultKey v)) { entity := v.entity }) rs

/-- Trace of one rewritten RunQuery call: the key list of every follow-up
Lookup call, and the outcome. -/
structure QueryTrace where
  lookupCalls : List (List (Option Key))
  result : Except Err RunQueryResponse
deriving DecidableEq, Repr

/-- `QueryToLookupWithKeysOnly` (transform package, key-map revision).
`runScan` is the remote outcome of the RunQuery invocation (the keys-only
scan when the query is rewritten, the untouched original call in the GQL and
existing-projection passthrough cases) and `lookup` the remote Lookup
oracle, returning the reply's `Found` list.  Mirrors the source: GQL and
already-projected queries pass through; a failed scan propagates; an empty
scan returns the keys-only reply with no Lookup; otherwise one Lookup for
exactly the scanned keys, a hard error when the found count differs from the
key count, and finally the key-map splice with the batch marked FULL. -/
def queryToLookupWithKeysOnly (req : RunQueryRequest)
    (runScan : Except Err RunQueryResponse)
    (lookup : List (Option Key) → Except Err (List EntityResult)) : QueryTrace :=
  match req.query with
  | none => { lookupCalls := [], result := runScan }
  | some q =>
    if q.projection.isSome then { lookupCalls := [], result := runScan }
    else
      match runScan with
      | Except.error e => { lookupCalls := [], result := Except.error e }
      | Except.ok resp =>
        match resp.batch with
        | none => { lookupCalls := [], result := Except.ok resp }
        | some b =>
          if b.entityResults.isEmpty then { lookupCalls := [], result := Except.ok resp }
          else
            let bkeys := b.entityResults.map entityResultKey
            match lookup bkeys with
            | Except.error e => { lookupCalls := [bkeys], result := Except.error e }
            | Except.ok found =>
              if found.length ≠ b.entityResults.length then
                { lookupCalls := [bkeys],
                  result := Except.error "could not lookup entities with same length as keys" }
              else
                let full : RunQueryResponse :=
                  { batch := some { entityResultType := ResultType.full,
                                    entityResults := spliceResults bkeys b.entityResults found } }
                { lookupCalls := [bkeys], result := Except.ok full }

/-- Claim C9: when the follow-up Lookup succeeds but returns a number of
found entities different from the number of requested keys, the whole
rewritten call fails with the hard consistency error and no spliced reply is
returned. -/
theorem c9_length_mismatch_fails (req : RunQueryRequest) (q : Query)
    (resp : RunQueryResponse) (b : QueryResultBatch)
    (lookup : List (Option Key) → Except Err (List EntityResult))
    (found : List EntityResult)
    (hq : req.query = some q) (hproj : q.projection = none)
    (hb : resp.batch = some b) (hne : b.entityResults ≠ [])
    (hlk : lookup (b.entityResults.map entityResultKey) = Except.ok found)
    (hlen : found.length ≠ b.entityResults.length) :
    queryToLookupWithKeysOnly req (Except.ok resp) lookup =
      { lookupCalls := [b.entityResults.map entityResultKey],
        result := Except.error "could not lookup entities with same length as keys" } := by
  have hemp : b.entityResults.isEmpty = false := by
    cases h : b.entityResults with
    | nil => exact absurd h hne
    | cons x xs => rfl
  unfold queryToLookupWithKeysOnly
  rw [hq]
  simp only [hproj, Option.isSome_none, Bool.false_eq_true, if_false, hb, hemp]
  rw [hlk]
  simp [hlen]

/-- Witness for `c9_length_mismatch_fails`: a one-row batch whose follow-up
Lookup returns two entities. -/
theorem c9_length_mismatch_fails_witness :
    ({ projectId := "p", readOptions := none,
       query := some { projection := none, rest := [] } } : RunQueryRequest).query =
      some { projection := none, rest := [] } ∧
    ({ batch := some { entityResultType := ResultType.keysOnly,
                       entityResults := [{ entity := some { key := some kx1, props := [] } }] } }
        : RunQueryResponse).batch =
      some { entityResultType := ResultType.keysOnly,
             entityResults := [{ entity := some { key := some kx1, props := [] } }] } ∧
    queryToLookupWithKeysOnly
        { projectId := "p", readOptions := none,
          query := some { projection := none, rest := [] } }
        (Except.ok { batch := some { entityResultType := ResultType.keysOnly,
                                     entityResults := [{ entity := some { key := some kx1, props := [] } }] } })
        (fun _ => Except.ok [erHit, erRemote]) =
      { lookupCalls := [[some kx1]],
        result := Except.error "could not lookup entities with same length as keys" } :=
  ⟨rfl, rfl,
   c9_length_mismatch_fails _ _ _ _ _ [erHit, erRemote] rfl rfl rfl (by decide) rfl (by decide)⟩

/-- A key that occurs nowhere in the batch leaves the keymap accumulator
untouched. -/
theorem keymapFindAux_of_not_mem (k : Option Key) :
    ∀ (ks : List (Option Key)) (i acc : Nat), k ∉ ks → keymapFindAux k ks i acc = acc := by
  intro ks
  induction ks with
  | nil => intro i acc _; rfl
  | cons k' tl ih =>
    intro i acc hk
    have h1 : ¬(k = k' ∨ k ∈ tl) := fun h => hk (List.mem_cons.mpr h)
    have hne : k' ≠ k := fun he => h1 (Or.inl he.symm)
    simp only [keymapFindAux, if_neg hne]
    exact ih (i + 1) acc (fun hm => h1 (Or.inr hm))

/-- On a duplicate-free batch the keymap recovers the index of each key. -/
theorem keymapFindAux_nodup :
    ∀ (ks : List (Option Key)), ks.Nodup →
      ∀ (i : Nat) (hi : i < ks.length) (off acc : Nat),
        keymapFindAux (ks.get ⟨i, hi⟩) ks off acc = off + i := by
  intro ks
  induction ks with
  | nil => intro _ i hi; exact absurd hi (Nat.not_lt_zero i)
  | cons k' tl ih =>
    intro hnd i hi off acc
    have hnd' := List.nodup_cons.mp hnd
    cases i with
    | zero =>
      have h0 : (k' :: tl).get ⟨0, hi⟩ = k' := rfl
      rw [h0,
          show keymapFindAux k' (k' :: tl) off acc
            = keymapFindAux k' tl (off + 1) (if k' = k' then off else acc) from rfl,
          if_pos rfl, keymapFindAux_of_not_mem k' tl (off + 1) off hnd'.1]
      omega
    | succ i' =>
      have hi' : i' < tl.length := Nat.lt_of_succ_lt_succ hi
      have hne : k' ≠ tl.get ⟨i', hi'⟩ := by
        intro he
        exact hnd'.1 (he ▸ List.get_mem tl i' hi')
      have h0 : (k' :: tl).get ⟨i' + 1, hi⟩ = tl.get ⟨i', hi'⟩ := rfl
      rw [h0,
          show keymapFindAux (tl.get ⟨i', hi'⟩) (k' :: tl) off acc
            = keymapFindAux (tl.get ⟨i', hi'⟩) tl (off + 1)
                (if k' = tl.get ⟨i', hi'⟩ then off else acc) from rfl,
          if_neg hne, ih hnd'.2 i' hi' (off + 1) acc]
      omega

/-- `keymapFind` on a duplicate-free batch maps the `i`-th key to `i`. -/
theorem keymapFind_get (ks : List (Option Key)) (hnd : ks.Nodup)
    (i : Nat) (hi : i < ks.length) :
    keymapFind ks (ks.get ⟨i, hi⟩) = i := by
  unfold keymapFind
  rw [keymapFindAux_nodup ks hnd i hi 0 0]
  omega

/-- A fold of positional writes leaves a slot alone when no written index
hits it. -/
theorem foldl_set_skip {α : Type} (g : α → Nat) (h : α → α) (i0 : Nat) :
    ∀ (tl : List α) (rs : List α), (∀ w ∈ tl, g w ≠ i0) →
      (tl.foldl (fun acc v => acc.set (g v) (h v)) rs)[i0]? = rs[i0]? := by
  intro tl
  induction tl with
  | nil => intro rs _; rfl
  | cons w tw ih =>
    intro rs hw
    have h1 : g w ≠ i0 := hw w (List.mem_cons_self w tw)
    have h2 : ∀ x ∈ tw, g x ≠ i0 := fun x hx => hw x (List.mem_cons_of_mem w hx)
    simp only [List.foldl_cons]
    rw [ih (rs.set (g w) (h w)) h2]
    exact List.getElem?_set_ne h1

/-- A fold of positional writes preserves the list's length. -/
theorem foldl_set_length {α : Type} (g : α → Nat) (h : α → α) :
    ∀ (tl : List α) (rs : List α),
      (tl.foldl (fun acc v => acc.set (g v) (h v)) rs).length = rs.length := by
  intro tl
  induction tl with
  | nil => intro rs; rfl
  | cons w tw ih =>
    intro rs
    simp only [List.foldl_cons]
    rw [ih (rs.set (g w) (h w))]
    exact List.length_set rs (g w) (h w)

/-- A fold of positional writes at pairwise-distinct indices stores each
element's value at its own index. -/
theorem foldl_set_get {α : Type} (g : α → Nat) (h : α → α) :
    ∀ (found : List α) (rs : List α), (found.map g).Nodup →
      ∀ (j : Nat) (hj : j < found.length), g (found.get ⟨j, hj⟩) < rs.length →
        (found.foldl (fun acc v => acc.set (g v) (h v)) rs)[g (found.get ⟨j, hj⟩)]? =
          some (h (found.get ⟨j, hj⟩)) := by
  intro found
  induction found with
  | nil => intro rs _ j hj; exact absurd hj (Nat.not_lt_zero j)
  | cons v tl ih =>
    intro rs hnd j hj hb
    have hnd' : g v ∉ tl.map g ∧ (tl.map g).Nodup := List.nodup_cons.mp (by simpa using hnd)
    cases j with
    | zero =>
      simp only [List.get, List.foldl_cons]
      have hskip : ∀ w ∈ tl, g w ≠ g v := by
        intro w hw he
        exact hnd'.1 (he ▸ List.mem_map_of_mem g hw)
      rw [foldl_set_skip g h (g v) tl (rs.set (g v) (h v)) hskip]
      exact List.getElem?_set_eq_of_lt (h v) (by simpa using hb)
    | succ j' =>
      have hj' : j' < tl.length := Nat.lt_of_succ_lt_succ hj
      simp only [List.get, List.foldl_cons]
      exact ih (rs.set (g v) (h v)) hnd'.2 j' hj' (by simpa [List.length_set] using hb)

/-- Claim C8: when the follow-up Lookup returns as many found entities as
requested keys — the batch keys being pairwise distinct, the found keys
pairwise distinct and drawn from the batch keys — each retrieved full entity
is written into the original batch's result slot whose key equals that
entity's key, in whatever order the Lookup reply lists the entities, and the
batch's result type is set to FULL. -/
theorem c8_splice_by_key (req : RunQueryRequest) (q : Query)
    (resp : RunQueryResponse) (b : QueryResultBatch)
    (lookup : List (Option Key) → Except Err (List EntityResult))
    (found : List EntityResult)
    (hq : req.query = some q) (hproj : q.projection = none)
    (hb : resp.batch = some b) (hne : b.entityResults ≠ [])
    (hlk : lookup (b.entityResults.map entityResultKey) = Except.ok found)
    (hlen : found.length = b.entityResults.length)
    (hndB : (b.entityResults.map entityResultKey).Nodup)
    (hndF : (found.map entityResultKey).Nodup)
    (hsub : ∀ v ∈ found, entityResultKey v ∈ b.entityResults.map entityResultKey) :
    ∃ b' : QueryResultBatch,
      (queryToLookupWithKeysOnly req (Except.ok resp) lookup).result =
        Except.ok { batch := some b' } ∧
      b'.entityResultType = ResultType.full ∧
      b'.entityResults.length = b.entityResults.length ∧
      ∀ (j : Nat) (hj : j < found.length) (i : Nat) (hi : i < b.entityResults.length),
        entityResultKey (found.get ⟨j, hj⟩) =
          entityResultKey (b.entityResults.get ⟨i, hi⟩) →
        b'.entityResults[i]? = some { entity := (found.get ⟨j, hj⟩).entity } := by
  have hemp : b.entityResults.isEmpty = false := by
    cases h : b.entityResults with
    | nil => exact absurd h hne
    | cons x xs => rfl
  have hres : queryToLookupWithKeysOnly req (Except.ok resp) lookup =
      ⟨[b.entityResults.map entityResultKey],
       Except.ok ⟨some ⟨ResultType.full,
         spliceResults (b.entityResults.map entityResultKey) b.entityResults found⟩⟩⟩ := by
    unfold queryToLookupWithKeysOnly
    rw [hq]
    simp only [hproj, Option.isSome_none, Bool.false_eq_true, if_false, hb, hemp]
    rw [hlk]
    simp [hlen]
  refine ⟨{ entityResultType := ResultType.full,
            entityResults := spliceResults (b.entityResults.map entityResultKey)
              b.entityResults found }, ?_, rfl, ?_, ?_⟩
  · rw [hres]
  · exact foldl_set_length _ _ found b.entityResults
  · intro j hj i hi hkey
    set bkeys := b.entityResults.map entityResultKey with hbk
    have hib : i < bkeys.length := by simpa [hbk, List.length_map] using hi
    have hkey' : entityResultKey (found.get ⟨j, hj⟩) = bkeys.get ⟨i, hib⟩ := by
      rw [hkey]
      simp [hbk, List.get_eq_getElem, List.getElem_map]
    have hfj : keymapFind bkeys (entityResultKey (found.get ⟨j, hj⟩)) = i := by
      rw [hkey']
      exact keymapFind_get bkeys hndB i hib
    have hinj : ∀ x ∈ found.map entityResultKey, ∀ y ∈ found.map entityResultKey,
        keymapFind bkeys x = keymapFind bkeys y → x = y := by
      intro x hx y hy hxy
      have hxb : x ∈ bkeys := by
        obtain ⟨v, hv, rfl⟩ := List.mem_map.mp hx
        exact hsub v hv
      have hyb : y ∈ bkeys := by
        obtain ⟨v, hv, rfl⟩ := List.mem_map.mp hy
        exact hsub v hv
      obtain ⟨ix, hix, hxe⟩ := List.getElem_of_mem hxb
      obtain ⟨iy, hiy, hye⟩ := List.getElem_of_mem hyb
      have h1 : keymapFind bkeys x = ix := by
        rw [← hxe]
        exact keymapFind_get bkeys hndB ix hix
      have h2 : keymapFind bkeys y = iy := by
        rw [← hye]
        exact keymapFind_get bkeys hndB iy hiy
      rw [h1, h2] at hxy
      subst hxy
      rw [← hxe, ← hye]
    have hndf2 : (found.map (fun v => keymapFind bkeys (entityResultKey v))).Nodup := by
      have hmm : found.map (fun v => keymapFind bkeys (entityResultKey v)) =
          (found.map entityResultKey).map (keymapFind bkeys) := by
        simp [List.map_map, Function.comp]
      rw [hmm]
      exact hndF.map_on hinj
    have hmain := foldl_set_get (fun v => keymapFind bkeys (entityResultKey v))
      (fun v => { entity := v.entity }) found b.entityResults hndf2 j hj
      (by
        show keymapFind bkeys (entityResultKey (found.get ⟨j, hj⟩)) < b.entityResults.length
        rw [hfj]
        exact hi)
    have hfj2 : keymapFind bkeys (entityResultKey found[j]) = i := hfj
    simp only [List.get_eq_getElem, hfj2] at hmain
    simpa [spliceResults, hbk, List.get_eq_getElem] using hmain

/-- Sample rewritable query request (structured query, no projection). -/
def qreqEx : RunQueryRequest :=
  { projectId := "p", readOptions := none, query := some { projection := none, rest := [] } }

/-- Sample keys-only scan batch over `kx1` and `kx2`. -/
def batchEx : QueryResultBatch :=
  { entityResultType := ResultType.keysOnly,
    entityResults := [{ entity := some { key := some kx1, props := [] } },
                      { entity := some { key := some kx2, props := [] } }] }

/-- Sample keys-only scan response. -/
def qrespEx : RunQueryResponse := { batch := some batchEx }

/-- Sample follow-up Lookup oracle replying in the opposite order of the
scanned keys. -/
def lookupEx : List (Option Key) → Except Err (List EntityResult) :=
  fun _ => Except.ok [erRemote, erHit]

/-- Witness for `c8_splice_by_key`: the Lookup reply lists the entities in
reverse key order and each still lands in its own slot. -/
theorem c8_splice_by_key_witness :
    qreqEx.query = some { projection := none, rest := [] } ∧
    qrespEx.batch = some batchEx ∧
    lookupEx (batchEx.entityResults.map entityResultKey) = Except.ok [erRemote, erHit] ∧
    (∃ b' : QueryResultBatch,
      (queryToLookupWithKeysOnly qreqEx (Except.ok qrespEx) lookupEx).result =
        Except.ok { batch := some b' } ∧
      b'.entityResultType = ResultType.full ∧
      b'.entityResults.length = batchEx.entityResults.length ∧
      ∀ (j : Nat) (hj : j < ([erRemote, erHit] : List EntityResult).length)
        (i : Nat) (hi : i < batchEx.entityResults.length),
        entityResultKey (([erRemote, erHit] : List EntityResult).get ⟨j, hj⟩) =
          entityResultKey (batchEx.entityResults.get ⟨i, hi⟩) →
        b'.entityResults[i]? =
          some { entity := (([erRemote, erHit] : List EntityResult).get ⟨j, hj⟩).entity }) :=
  ⟨rfl, rfl, rfl,
   c8_splice_by_key qreqEx { projection := none, rest := [] } qrespEx batchEx lookupEx
     [erRemote, erHit] rfl rfl rfl (by decide) rfl (by decide) (by decide) (by decide)
     (by decide)⟩
